import Mathlib

/-!
Verification development for the uv-dash process lifecycle manager
(src/main/apps/runner.ts, src/main/apps/process-monitor.ts, the startup
recovery loop in the main entry, and src/shared/constants.ts).

The TypeScript source is shallowly embedded: pure functions become Lean
functions, the module-level mutable maps (runningProcesses,
stoppingProcesses, statsMonitoringTimers) become an explicit state record
threaded through transition functions, and OS facts (spawn success, pid
liveness, signal delivery) are passed in as explicit parameters.
-/

namespace UvDash

/-! ## Shared constants (src/shared/constants.ts, export const PROCESS) -/

structure ProcessConstants where
  SIGKILL_TIMEOUT_MS : Nat
  PORT_MIN : Nat
  PORT_MAX : Nat

def PROCESS : ProcessConstants :=
  { SIGKILL_TIMEOUT_MS := 5000, PORT_MIN := 1, PORT_MAX := 65535 }

/-! ## Character classes of the JavaScript regexes used by detectPortFromLog -/

/-- JavaScript regex class \d, i.e. the ASCII digits 0-9. -/
def isDigitCh (c : Char) : Bool :=
  '0' ≤ c && c ≤ '9'

/-- JavaScript regex class \s (whitespace, including the Unicode members). -/
def isWsCh (c : Char) : Bool :=
  c = ' ' || c = '\t' || c = '\n' || c = '\r' || c.toNat = 11 || c.toNat = 12 ||
  c.toNat = 0xa0 || c.toNat = 0x1680 || (0x2000 ≤ c.toNat && c.toNat ≤ 0x200a) ||
  c.toNat = 0x2028 || c.toNat = 0x2029 || c.toNat = 0x202f || c.toNat = 0x205f ||
  c.toNat = 0x3000 || c.toNat = 0xfeff

/-- JavaScript regex dot (without the s flag): any char except a line terminator. -/
def isDotCh (c : Char) : Bool :=
  !(c = '\n' || c = '\r' || c.toNat = 0x2028 || c.toNat = 0x2029)

/-- Case-insensitive character comparison (the /i flag on every pattern). -/
def lcEq (a b : Char) : Bool :=
  a.toLower = b.toLower

/-- Strip a case-insensitive literal from the front of the input,
returning the remaining suffix on success. -/
def stripCI : List Char → List Char → Option (List Char)
  | [], s => some s
  | _ :: _, [] => none
  | p :: ps, c :: cs => if lcEq p c then stripCI ps cs else none

/-- Case-insensitive substring test: RegExp.test for a pattern that is a
plain literal, as all entries of errorPatterns are. -/
def containsCI (pat : List Char) : List Char → Bool
  | [] => (stripCI pat []).isSome
  | c :: rest => (stripCI pat (c :: rest)).isSome || containsCI pat rest

/-- Numeric value of a digit run, as parseInt(_, 10) computes it. -/
def digitsVal (ds : List Char) : Nat :=
  ds.foldl (fun n c => n * 10 + (c.toNat - 48)) 0

/-- The trailing capture group (\d+) that ends every pattern of
detectPortFromLog: greedy, at least one digit, nothing after it, so it
captures the maximal digit run at the current position. -/
def capNum (s : List Char) : Option Nat :=
  match s.takeWhile isDigitCh with
  | [] => none
  | ds => some (digitsVal ds)

/-! ## A backtracking matcher for the shapes of regex actually used

Every pattern in detectPortFromLog is a sequence of the items below
followed by a final capture group (\d+).  The matcher implements the
JavaScript backtracking order: alternatives left to right, greedy
star/plus prefer consuming, lazy star prefers not consuming, and
String.match returns the match at the leftmost feasible start position. -/

inductive RItem where
  | lit (cs : List Char)
  | alts (ss : List (List Char))
  | opt (c : Char)
  | star (p : Char → Bool)
  | starL (p : Char → Bool)
  | plus (p : Char → Bool)

/-- Match the item sequence anchored at the current position, then the
final (\d+), returning the captured number.  The fuel argument only
bounds recursion depth; callers supply more than any backtracking run
can consume. -/
def matchItems : Nat → List RItem → List Char → Option Nat
  | 0, _, _ => none
  | _ + 1, [], s => capNum s
  | fuel + 1, .lit cs :: rest, s => (stripCI cs s).bind (matchItems fuel rest)
  | fuel + 1, .alts ss :: rest, s =>
    (ss.map (fun cs => (stripCI cs s).bind (matchItems fuel rest))).findSome? id
  | fuel + 1, .opt c :: rest, s =>
    match s with
    | d :: s' =>
      if lcEq c d then matchItems fuel rest s' <|> matchItems fuel rest s
      else matchItems fuel rest s
    | [] => matchItems fuel rest []
  | fuel + 1, .star p :: rest, s =>
    (match s with
     | c :: s' => if p c then matchItems fuel (.star p :: rest) s' else none
     | [] => none) <|> matchItems fuel rest s
  | fuel + 1, .starL p :: rest, s =>
    matchItems fuel rest s <|>
      (match s with
       | c :: s' => if p c then matchItems fuel (.starL p :: rest) s' else none
       | [] => none)
  | fuel + 1, .plus p :: rest, s =>
    match s with
    | c :: s' => if p c then matchItems fuel (.star p :: rest) s' else none
    | [] => none

/-- Fuel ample for one anchored attempt (quadratic in the input suffices
for the at-most-two lazy stars any pattern contains). -/
def patFuel (s : List Char) : Nat :=
  (s.length + 2) * (s.length + 2) * 4 + 100

/-- Leftmost-match search: try every start position left to right, as
String.match does for an unanchored pattern.  The first argument counts
the positions still to try. -/
def searchFrom : Nat → List RItem → List Char → Option Nat
  | 0, _, _ => none
  | _ + 1, items, [] => matchItems (patFuel []) items []
  | fuel + 1, items, c :: s' =>
    matchItems (patFuel (c :: s')) items (c :: s') <|> searchFrom fuel items s'

/-- message.match(pattern) followed by parseInt on capture group 1. -/
def execPattern (items : List RItem) (s : List Char) : Option Nat :=
  searchFrom (s.length + 1) items s

/-! ## detectPortFromLog (src/main/apps/runner.ts lines 458-536) -/

/-- errorPatterns: every entry is a case-insensitive literal. -/
def errorPatterns : List (List Char) :=
  ["error".data, "failed".data, "refused".data, "timeout".data, "cannot".data,
   "unable".data, "already in use".data, "bind".data, "connecting to".data,
   "connect to".data, "connection to".data]

/-- Flask: /\*\s+Running on.*?:(\d+)/i -/
def flaskPattern : List RItem :=
  [.lit "*".data, .plus isWsCh, .lit "Running on".data, .starL isDotCh, .lit ":".data]

/-- Streamlit: /Local URL:\s*https?:\/\/[^:]+:(\d+)/i -/
def streamlitPattern : List RItem :=
  [.lit "Local URL:".data, .star isWsCh, .lit "http".data, .opt 's',
   .lit "://".data, .plus (fun c => c ≠ ':'), .lit ":".data]

/-- FastAPI/Uvicorn: /Uvicorn running on.*?:(\d+)/i -/
def uvicornPattern : List RItem :=
  [.lit "Uvicorn running on".data, .starL isDotCh, .lit ":".data]

/-- Django: /Starting development server at.*?:(\d+)/i -/
def djangoPattern : List RItem :=
  [.lit "Starting development server at".data, .starL isDotCh, .lit ":".data]

def frameworkPatterns : List (List RItem) :=
  [flaskPattern, streamlitPattern, uvicornPattern, djangoPattern]

/-- The positive-keyword alternation shared by the generic patterns. -/
def positiveKeywords : List (List Char) :=
  ["listening".data, "running".data, "started".data, "starting".data,
   "serving".data, "available".data]

/-- /(?:listening|running|started|starting|serving|available).*?(?:on|at).*?:(\d+)/i -/
def positivePattern1 : List RItem :=
  [.alts positiveKeywords, .starL isDotCh, .alts ["on".data, "at".data],
   .starL isDotCh, .lit ":".data]

/-- /(?:listening|running|started|starting|serving|available).*?(?:port|PORT)[\s:]+(\d+)/i -/
def positivePattern2 : List RItem :=
  [.alts positiveKeywords, .starL isDotCh, .alts ["port".data, "PORT".data],
   .plus (fun c => isWsCh c || c = ':')]

/-- /server.*?(?:listening|running|started|starting).*?:(\d+)/i -/
def positivePattern3 : List RItem :=
  [.lit "server".data, .starL isDotCh,
   .alts ["listening".data, "running".data, "started".data, "starting".data],
   .starL isDotCh, .lit ":".data]

def positivePatterns : List (List RItem) :=
  [positivePattern1, positivePattern2, positivePattern3]

/-- /https?:\/\/(?:localhost|127\.0\.0\.1|0\.0\.0\.0|\*):(\d+)/i -/
def urlPatterns : List (List RItem) :=
  [[.lit "http".data, .opt 's', .lit "://".data,
    .alts ["localhost".data, "127.0.0.1".data, "0.0.0.0".data, "*".data],
    .lit ":".data]]

/-- One of the source's three identical pattern loops: take the first
pattern whose first match captures a number inside [PORT_MIN, PORT_MAX];
an out-of-range capture abandons that pattern and continues with the
next one. -/
def tryPatterns : List (List RItem) → List Char → Option Nat
  | [], _ => none
  | items :: ps, s =>
    match execPattern items s with
    | some port =>
      if PROCESS.PORT_MIN ≤ port && port ≤ PROCESS.PORT_MAX then some port
      else tryPatterns ps s
    | none => tryPatterns ps s

/-- detectPortFromLog: reject on any error pattern, then run the
framework, positive and URL pattern loops in order. -/
def detectPortFromLog (message : List Char) : Option Nat :=
  if errorPatterns.any (fun pat => containsCI pat message) then none
  else
    match tryPatterns frameworkPatterns message with
    | some port => some port
    | none =>
      match tryPatterns positivePatterns message with
      | some port => some port
      | none => tryPatterns urlPatterns message

/-! ## Command tokenization (shell-quote parse, as called by runApp)

runApp splits the raw command with shell-quote's parse and keeps only the
string entries.  The commands the runner deals in contain no shell
operators or variable references, so the model covers shell-quote's word
splitting and quoting: whitespace separates words, single quotes are
literal, double quotes allow backslash escapes, and a backslash outside
quotes escapes the next character. -/

/-- Tokenizer mode: outside quotes, in single quotes, in double quotes,
and the two pending-backslash states (the character after the escape is
taken literally). -/
inductive QMode where
  | noQ
  | sQ
  | dQ
  | noQesc
  | dQesc
  deriving DecidableEq, Repr

/-- Worker for tokenize: input, current word (reversed), whether a word
has started, quote mode. -/
def tokAux : List Char → List Char → Bool → QMode → List (List Char)
  | [], cur, started, .noQesc => if started then [cur.reverse] else []
  | [], cur, _, .dQesc => [('\\' :: cur).reverse]
  | [], cur, started, _ => if started then [cur.reverse] else []
  | c :: rest, cur, _, .sQ =>
    if c = '\'' then tokAux rest cur true .noQ
    else tokAux rest (c :: cur) true .sQ
  | c :: rest, cur, _, .dQ =>
    if c = '"' then tokAux rest cur true .noQ
    else if c = '\\' then tokAux rest cur true .dQesc
    else tokAux rest (c :: cur) true .dQ
  | c :: rest, cur, _, .dQesc => tokAux rest (c :: cur) true .dQ
  | c :: rest, cur, _, .noQesc => tokAux rest (c :: cur) true .noQ
  | c :: rest, cur, started, .noQ =>
    if c = ' ' || c = '\t' || c = '\n' || c = '\r' then
      if started then cur.reverse :: tokAux rest [] false .noQ
      else tokAux rest [] false .noQ
    else if c = '\'' then tokAux rest cur true .sQ
    else if c = '"' then tokAux rest cur true .dQ
    else if c = '\\' then tokAux rest cur started .noQesc
    else tokAux rest (c :: cur) true .noQ

/-- commandArgs: parseShellCommand(commandToRun) filtered to strings. -/
def tokenize (s : String) : List (List Char) :=
  tokAux s.data [] false .noQ

/-! ## Command resolution and spawn arguments (runApp lines 579-686) -/

inductive RunError where
  | alreadyRunning
  | noCommand
  | emptyCommand
  | startFailed
  deriving DecidableEq, Repr

/-- The argument vector handed to spawn after the uv executable, as the
branch structure of runApp computes it: a leading "uv run" is stripped
and re-synthesized, "uv x"/"uv --with" and any other "uv" subcommand pass
the remainder through, and any other command is prefixed with "run". -/
def resolveSpawnArgs (commandToRun : String) : Except RunError (List (List Char)) :=
  let commandArgs := tokenize commandToRun
  if commandArgs.isEmpty then .error .emptyCommand
  else if commandArgs.head? = some "uv".data then
    if commandArgs[1]? = some "run".data then
      .ok ("run".data :: commandArgs.drop 2)
    else if commandArgs[1]? = some "x".data || commandArgs[1]? = some "--with".data then
      .ok (commandArgs.drop 1)
    else
      .ok (commandArgs.drop 1)
  else
    .ok ("run".data :: commandArgs)

/-! ## Child environment (the env option of every spawn call in runApp) -/

/-- Field lookup on a JavaScript object literal built by spreads,
represented as the ordered list of its entries: the last entry with the
key wins. -/
def objLookup (obj : List (String × String)) (k : String) : Option String :=
  (obj.reverse.find? (fun e => e.1 = k)).map Prod.snd

/-- env: \x7b ...process.env, PYTHONUNBUFFERED: '1', ...env \x7d -/
def buildChildEnv (procEnv callerEnv : List (String × String)) : List (String × String) :=
  procEnv ++ [("PYTHONUNBUFFERED", "1")] ++ callerEnv

/-! ## Startup recovery loop (main entry, app.whenReady) and persistence -/

inductive AppStatus where
  | installing
  | installed
  | running
  | errored
  deriving DecidableEq, Repr

/-- The claim-relevant fields of a persisted AppInfo record. -/
structure AppInfo where
  status : AppStatus
  pid : Option Nat
  port : Option Nat
  installPath : Option String
  deriving DecidableEq, Repr

/-- loadApps restores every persisted record with status 'installed'. -/
def restoreApp (a : AppInfo) : AppInfo :=
  { a with status := .installed }

/-- One iteration of the startup recovery loop over persistedApps: if the
record has a pid and that pid is alive, recoverProcess is invoked and the
app is stored with status 'running' and its other fields (pid, port)
unchanged; otherwise runtime state is cleared. -/
def recoveryStep (pidAlive : Bool) (appInfo : AppInfo) : AppInfo :=
  let hasPid := appInfo.pid.isSome
  if hasPid && pidAlive then
    { appInfo with status := .running }
  else
    { appInfo with
      status := if appInfo.status = .running then .installed else appInfo.status,
      pid := none,
      port := none }

/-! ## Log polling (startLogPolling, runner.ts lines 250-304) -/

/-- JavaScript String.split('\n'): every component, including a trailing
empty one when the input ends with the separator. -/
def splitNlAux : List Char → List Char → List (List Char)
  | [], cur => [cur.reverse]
  | c :: rest, cur =>
    if c = '\n' then cur.reverse :: splitNlAux rest []
    else splitNlAux rest (c :: cur)

def splitNl (s : List Char) : List (List Char) :=
  splitNlAux s []

/-- line.trim() is truthy: the line has a non-whitespace character. -/
def lineNonBlank (l : List Char) : Bool :=
  l.any (fun c => !isWsCh c)

/-- One tick of the startLogPolling interval, given the current file
contents: if the file has grown past the remembered offset, read the
delta, split it on newlines, keep the last (incomplete) component in a
buffer local to this tick, and emit every complete nonblank line; then
remember the full file size as the new offset. -/
def logPollTick (content : List Char) (lastPosition : Nat) : List (List Char) × Nat :=
  if lastPosition < content.length then
    let delta := content.drop lastPosition
    let lines := splitNl delta
    let emitted := lines.dropLast.filter lineNonBlank
    (emitted, content.length)
  else
    ([], lastPosition)

/-- Run the poller over successive file snapshots (the file after each
append), collecting every emitted line. -/
def logPollRun : List (List Char) → Nat → List (List Char)
  | [], _ => []
  | content :: later, pos =>
    (logPollTick content pos).1 ++ logPollRun later (logPollTick content pos).2

/-- The file snapshots produced by appending each delta in turn to an
existing prefix. -/
def snapshotsFrom (acc : List Char) : List (List Char) → List (List Char)
  | [] => []
  | d :: ds => (acc ++ d) :: snapshotsFrom (acc ++ d) ds

/-- The completed (newline-terminated) lines of a file. -/
def completeLinesAux : List Char → List Char → List (List Char)
  | [], _ => []
  | c :: rest, cur =>
    if c = '\n' then cur.reverse :: completeLinesAux rest []
    else completeLinesAux rest (c :: cur)

def completeLines (s : List Char) : List (List Char) :=
  completeLinesAux s []

/-! ## The runner's module state (runner.ts lines 72-103)

The three module-level maps become one explicit state record.  Handle
objects (ChildProcess / RecoveredProcessHandle) outlive their registry
entry — the event-handler closures keep them reachable — so they are a
separate component keyed by appId that cleanup does not remove.  Interval
handles returned by setInterval are numbered; liveIntervals holds the
ids of intervals that have not been cleared. -/

def lookupA {α : Type} (l : List (String × α)) (k : String) : Option α :=
  (l.find? (fun e => e.1 = k)).map Prod.snd

/-- Map.set: replace the entry in place, or append a new one. -/
def setKey {α : Type} (l : List (String × α)) (k : String) (v : α) : List (String × α) :=
  if (lookupA l k).isSome then l.map (fun e => if e.1 = k then (k, v) else e)
  else l ++ [(k, v)]

/-- Map.delete. -/
def eraseKey {α : Type} (l : List (String × α)) (k : String) : List (String × α) :=
  l.filter (fun e => e.1 != k)

inductive HandleKind where
  | spawned
  | recovered
  deriving DecidableEq, Repr

/-- A ChildProcess or RecoveredProcessHandle: pid plus, for the recovered
variant, whether its liveness watch interval is armed. -/
structure HandleState where
  kind : HandleKind
  pid : Option Nat
  watchActive : Bool
  deriving DecidableEq, Repr

/-- ProcessInfo (runner.ts lines 72-78); the process field is looked up
in procHandles under the same appId. -/
structure ProcessInfo where
  startTime : Nat
  installPath : String
  logPollInterval : Option Nat
  deriving DecidableEq, Repr

structure RunnerState where
  runningProcesses : List (String × ProcessInfo)
  stoppingProcesses : List String
  statsMonitoringTimers : List String
  procHandles : List (String × HandleState)
  liveIntervals : List Nat
  nextTimerId : Nat
  deriving DecidableEq, Repr

inductive LogKey where
  | processError
  | processExited
  | processZombie
  | processTerminated
  | processStarted
  | commandRun
  | stoppingMsg
  | flushWait
  | sigtermWarning
  | sigtermSent
  | stopRequested
  deriving DecidableEq, Repr

/-- Callbacks observable by the caller: onLog, onPortDetected and
onProcessStopped invocations. -/
inductive REvent where
  | log (appId : String) (key : LogKey)
  | portDetected (appId : String) (port : Nat)
  | stopped (appId : String)
  deriving DecidableEq, Repr

def setHandle (st : RunnerState) (appId : String) (h : HandleState) : RunnerState :=
  { st with procHandles := setKey st.procHandles appId h }

/-- RecoveredProcessHandle.stopWatch. -/
def stopWatch (st : RunnerState) (appId : String) : RunnerState :=
  match lookupA st.procHandles appId with
  | some h => setHandle st appId { h with watchActive := false }
  | none => st

/-- stopLogPolling (lines 309-315): consults runningProcesses for the
interval handle; if the entry is gone the interval is left running. -/
def stopLogPolling (st : RunnerState) (appId : String) : RunnerState :=
  match lookupA st.runningProcesses appId with
  | some info =>
    match info.logPollInterval with
    | some tid =>
      { st with
        liveIntervals := st.liveIntervals.filter (fun t => t != tid),
        runningProcesses :=
          setKey st.runningProcesses appId { info with logPollInterval := none } }
    | none => st
  | none => st

/-- stopStatsMonitoring (lines 239-245). -/
def stopStatsMonitoring (st : RunnerState) (appId : String) : RunnerState :=
  if st.statsMonitoringTimers.contains appId then
    { st with statsMonitoringTimers := st.statsMonitoringTimers.filter (fun a => a != appId) }
  else st

/-- cleanupProcessResources (lines 158-162), in the source's order:
delete the registry entry first, then stop the polls. -/
def cleanupProcessResources (st : RunnerState) (appId : String) : RunnerState :=
  let st1 := { st with runningProcesses := eraseKey st.runningProcesses appId }
  let st2 := stopLogPolling st1 appId
  stopStatsMonitoring st2 appId

inductive CleanupReason where
  | zombie
  | terminated
  deriving DecidableEq, Repr

/-- cleanupTerminatedProcess (lines 168-189): log, clean up, notify. -/
def cleanupTerminatedProcess (st : RunnerState) (appId : String)
    (reason : CleanupReason) : RunnerState × List REvent :=
  let logEv := match reason with
    | .zombie => REvent.log appId .processZombie
    | .terminated => REvent.log appId .processTerminated
  let st' := cleanupProcessResources st appId
  (st', [logEv, REvent.stopped appId])

inductive HealthStatus where
  | running
  | zombie
  | unknown
  deriving DecidableEq, Repr

/-- The status classification of getProcessStats
(process-monitor.ts): alive means running; dead more than 5000 ms after
startTime means zombie; dead within the grace window means unknown. -/
def healthStatusOf (isAlive : Bool) (now startTime : Nat) : HealthStatus :=
  if isAlive then .running
  else if 5000 < now - startTime then .zombie
  else .unknown

/-- One tick of the startStatsMonitoring interval (lines 204-231), with
the OS liveness probe and the clock passed in. -/
def statsTick (st : RunnerState) (appId : String) (isAlive : Bool) (now : Nat) :
    RunnerState × List REvent :=
  if !st.statsMonitoringTimers.contains appId then (st, [])
  else
    match lookupA st.runningProcesses appId with
    | none => (stopStatsMonitoring st appId, [])
    | some info =>
      match (lookupA st.procHandles appId).bind HandleState.pid with
      | none => (st, [])
      | some _ =>
        let status := healthStatusOf isAlive now info.startTime
        if status = .zombie then cleanupTerminatedProcess st appId .zombie
        else if !isAlive then cleanupTerminatedProcess st appId .terminated
        else (st, [])

/-- The close handler's clearTimeout step: disarm the kill-fallback
timeout if one is recorded for the app. -/
def clearStopTimeout (st : RunnerState) (appId : String) : RunnerState :=
  if st.stoppingProcesses.contains appId then
    { st with stoppingProcesses := st.stoppingProcesses.filter (fun a => a != appId) }
  else st

/-- The close handler's instanceof check: stop the watch when the handle
is a RecoveredProcessHandle. -/
def stopWatchIfRecovered (st : RunnerState) (appId : String) : RunnerState :=
  match lookupA st.procHandles appId with
  | some h => if h.kind = .recovered then stopWatch st appId else st
  | none => st

/-- The body of the close handler installed by setupProcessHandlers
(lines 369-390): log, clear the kill-fallback timeout, stop the watch of
a recovered handle, run the common cleanup, and invoke onProcessStopped
unconditionally. -/
def closeHandler (st : RunnerState) (appId : String) : RunnerState × List REvent :=
  let st1 := clearStopTimeout st appId
  let st2 := stopWatchIfRecovered st1 appId
  let st3 := cleanupProcessResources st2 appId
  (st3, [REvent.log appId .processExited, REvent.stopped appId])

/-- One tick of RecoveredProcessHandle.startWatch (lines 32-44): if the
watch is armed and the process is gone, stop the watch and emit close,
which runs the close handler. -/
def watchTick (st : RunnerState) (appId : String) (isAlive : Bool) :
    RunnerState × List REvent :=
  match lookupA st.procHandles appId with
  | some h =>
    if h.watchActive && !isAlive then
      let st1 := stopWatch st appId
      closeHandler st1 appId
    else (st, [])
  | none => (st, [])

/-- startStatsMonitoring (lines 194-234): no-op when already polling. -/
def startStatsMonitoring (st : RunnerState) (appId : String) : RunnerState :=
  if st.statsMonitoringTimers.contains appId then st
  else { st with statsMonitoringTimers := st.statsMonitoringTimers ++ [appId] }

/-- startLogPolling's setInterval: allocate a fresh interval id. -/
def startLogPollingTimer (st : RunnerState) : RunnerState × Nat :=
  ({ st with
      liveIntervals := st.liveIntervals ++ [st.nextTimerId],
      nextTimerId := st.nextTimerId + 1 },
   st.nextTimerId)

/-- setupProcessHandlers (lines 329-418): store the handle (the closures
keep it live), register the ProcessInfo, start log polling when a log
file path was given, start health polling, arm the watch of a recovered
handle, and return the pid. -/
def setupProcessHandlers (st : RunnerState) (appId installPath : String)
    (h : HandleState) (now : Nat) (hasLogFile : Bool) :
    RunnerState × List REvent × Option Nat :=
  let st0 := setHandle st appId h
  let info : ProcessInfo := { startTime := now, installPath := installPath, logPollInterval := none }
  let st1 := { st0 with runningProcesses := setKey st0.runningProcesses appId info }
  let st2 :=
    if hasLogFile then
      let (stT, tid) := startLogPollingTimer st1
      { stT with
        runningProcesses := setKey stT.runningProcesses appId { info with logPollInterval := some tid } }
    else st1
  let st3 := startStatsMonitoring st2 appId
  let st4 :=
    if h.kind = .recovered then
      match lookupA st3.procHandles appId with
      | some hh => setHandle st3 appId { hh with watchActive := true }
      | none => st3
    else st3
  (st4, [REvent.log appId .processStarted], h.pid)

/-- The argument vector and environment of the spawn call runApp makes. -/
structure SpawnCall where
  args : List (List Char)
  env : List (String × String)
  deriving DecidableEq, Repr

/-- runApp (lines 550-693).  The OS spawn outcome and the pyproject.toml
auto-detection result are parameters; a successful run reports the pid
and the spawn call that was issued. -/
def runApp (st : RunnerState) (appId installPath : String)
    (runCommand detectedCommand : Option String)
    (callerEnv procEnv : List (String × String))
    (spawnOk : Bool) (spawnPid : Nat) (now : Nat) :
    RunnerState × List REvent × Except RunError (Option Nat × SpawnCall) :=
  if (lookupA st.runningProcesses appId).isSome then (st, [], .error .alreadyRunning)
  else
    match runCommand <|> detectedCommand with
    | none => (st, [], .error .noCommand)
    | some cmd =>
      match resolveSpawnArgs cmd with
      | .error e => (st, [], .error e)
      | .ok args =>
        if !spawnOk then (st, [], .error .startFailed)
        else
          let call : SpawnCall := { args := args, env := buildChildEnv procEnv callerEnv }
          let h : HandleState := { kind := .spawned, pid := some spawnPid, watchActive := false }
          let (st', evs, pid) := setupProcessHandlers st appId installPath h now true
          (st', REvent.log appId .commandRun :: evs, .ok (pid, call))

inductive StopError where
  | notRunning
  | noPid
  | alreadyStopping
  | stopFailed
  deriving DecidableEq, Repr

/-- stopApp (lines 702-800).  killOk is the outcome the tree-kill
callback reports; arming the SIGKILL fallback timeout is recorded in
stoppingProcesses, exactly as the source's map does. -/
def stopApp (st : RunnerState) (appId : String) (isWindows killOk : Bool) :
    RunnerState × List REvent × Except StopError Unit :=
  match lookupA st.runningProcesses appId with
  | none => (st, [], .error .notRunning)
  | some _ =>
    match (lookupA st.procHandles appId).bind HandleState.pid with
    | none => (st, [], .error .noPid)
    | some _ =>
      if st.stoppingProcesses.contains appId then (st, [], .error .alreadyStopping)
      else
        let st1 := stopStatsMonitoring st appId
        let killEv := if killOk then REvent.log appId .sigtermSent
                      else REvent.log appId .sigtermWarning
        if isWindows then
          (st1,
           [REvent.log appId .stoppingMsg, REvent.log appId .flushWait, killEv,
            REvent.log appId .stopRequested],
           .ok ())
        else
          let st2 := { st1 with stoppingProcesses := st1.stoppingProcesses ++ [appId] }
          (st2,
           [REvent.log appId .stoppingMsg, killEv, REvent.log appId .stopRequested],
           .ok ())

/-- recoverProcess (lines 813-855): build a RecoveredProcessHandle and
run it through the same setupProcessHandlers as a fresh spawn, tailing
the same log file.  (The one-shot replay of the existing file only emits
historical log lines.) -/
def recoverProcess (st : RunnerState) (appId : String) (pid : Nat)
    (installPath : String) (now : Nat) : RunnerState × List REvent :=
  let h : HandleState := { kind := .recovered, pid := some pid, watchActive := false }
  let (st', evs, _) := setupProcessHandlers st appId installPath h now true
  (st', evs)

/-! ## Concrete states used by witnesses and counterexamples -/

/-- The module state at load: all three maps empty. -/
def initState : RunnerState := ⟨[], [], [], [], [], 0⟩

/-- State after one successful launch of app "a" (pid 77, started at 5). -/
def launchedState : RunnerState :=
  (runApp initState "a" "/p" (some "python app.py") none [] [] true 77 5).1

/-- State after adopting app "a" with remembered pid 4242 at time 0. -/
def recoveredState : RunnerState :=
  (recoverProcess initState "a" 4242 "/p" 0).1

/-! ## Helper lemmas on the association-list maps -/

theorem lookupA_append {α : Type} (l l' : List (String × α)) (k : String) :
    lookupA (l ++ l') k = (lookupA l k <|> lookupA l' k) := by
  induction l with
  | nil => simp [lookupA]
  | cons e l ih =>
    by_cases he : e.1 = k
    · simp [lookupA, List.find?, he]
    · simpa [lookupA, List.find?, he] using ih

theorem lookupA_nil {α : Type} (k : String) : lookupA ([] : List (String × α)) k = none := rfl

theorem lookupA_single_self {α : Type} (k : String) (v : α) :
    lookupA [(k, v)] k = some v := by
  simp [lookupA, List.find?]

theorem lookupA_single_ne {α : Type} (k k' : String) (v : α) (h : k' ≠ k) :
    lookupA [(k, v)] k' = none := by
  simp [lookupA, List.find?, Ne.symm h]

theorem lookupA_isSome_of_mem_keys {α : Type} (l : List (String × α)) (k : String)
    (h : k ∈ l.map Prod.fst) : (lookupA l k).isSome := by
  induction l with
  | nil => simp at h
  | cons e l ih =>
    by_cases he : e.1 = k
    · simp [lookupA, List.find?, he]
    · have hm : k ∈ l.map Prod.fst := by
        rcases List.mem_map.mp h with ⟨x, hx, hxk⟩
        cases List.mem_cons.mp hx with
        | inl h1 => exact absurd (h1 ▸ hxk) he
        | inr h2 => exact List.mem_map.mpr ⟨x, h2, hxk⟩
      simpa [lookupA, List.find?, he] using ih hm

theorem not_mem_keys_of_lookupA_none {α : Type} (l : List (String × α)) (k : String)
    (h : lookupA l k = none) : k ∉ l.map Prod.fst := by
  intro hm
  have hs := lookupA_isSome_of_mem_keys l k hm
  rw [h] at hs
  simp at hs

theorem keys_setKey_present {α : Type} (l : List (String × α)) (k : String) (v : α)
    (h : (lookupA l k).isSome) :
    (setKey l k v).map Prod.fst = l.map Prod.fst := by
  simp only [setKey, h, if_pos]
  rw [List.map_map]
  apply List.map_congr_left
  intro e _
  by_cases he : e.1 = k <;> simp [he]

theorem keys_setKey_absent {α : Type} (l : List (String × α)) (k : String) (v : α)
    (h : (lookupA l k).isSome = false) :
    (setKey l k v).map Prod.fst = l.map Prod.fst ++ [k] := by
  simp only [setKey, h]
  simp

theorem lookupA_setKey_absent_self {α : Type} (l : List (String × α)) (k : String) (v : α)
    (h : (lookupA l k).isSome = false) :
    lookupA (setKey l k v) k = some v := by
  have hn : lookupA l k = none := Option.not_isSome_iff_eq_none.mp (by simp [h])
  simp [setKey, h, lookupA_append, hn, lookupA_single_self]

theorem contains_filter_ne_self (l : List String) (k : String) :
    (l.filter (fun a => a != k)).contains k = false := by
  rw [Bool.eq_false_iff]
  intro hc
  have hm : k ∈ l.filter (fun a => a != k) := List.elem_iff.mp hc
  have := List.mem_filter.mp hm
  simp at this

/-! ## Helper lemmas on line splitting (for the log tailer) -/

theorem splitNlAux_ne_nil (s cur : List Char) : splitNlAux s cur ≠ [] := by
  induction s generalizing cur with
  | nil => simp [splitNlAux]
  | cons c rest ih => by_cases h : c = '\n' <;> simp [splitNlAux, h, ih]

/-- Dropping the held-back trailing component of String.split('\n')
leaves exactly the newline-terminated lines. -/
theorem dropLast_splitNlAux (s cur : List Char) :
    (splitNlAux s cur).dropLast = completeLinesAux s cur := by
  induction s generalizing cur with
  | nil => simp [splitNlAux, completeLinesAux]
  | cons c rest ih =>
    by_cases h : c = '\n'
    · simp only [splitNlAux, completeLinesAux, h, if_pos]
      rw [List.dropLast_cons_of_ne_nil (splitNlAux_ne_nil rest [])]
      rw [ih]
    · simp [splitNlAux, completeLinesAux, h, ih]

theorem completeLinesAux_cons (c : Char) (rest cur : List Char) :
    completeLinesAux (c :: rest) cur =
      if c = '\n' then cur.reverse :: completeLinesAux rest []
      else completeLinesAux rest (c :: cur) := rfl

theorem getLast?_cons_of_ne_nil {α : Type} (c : α) (l : List α) (h : l ≠ []) :
    (c :: l).getLast? = l.getLast? := by
  obtain ⟨d, l', rfl⟩ := List.exists_cons_of_ne_nil h
  simp [List.getLast?_cons_cons]

/-- Completed lines split across an append whose left part ends at a
newline boundary. -/
theorem completeLinesAux_append_aligned (a : List Char) (x : List Char)
    (h : a.getLast? = some '\n') (cur : List Char) :
    completeLinesAux (a ++ x) cur = completeLinesAux a cur ++ completeLinesAux x [] := by
  induction a generalizing cur with
  | nil => simp at h
  | cons c rest ih =>
    rcases eq_or_ne rest [] with hre | hre
    · subst hre
      have hc : c = '\n' := by simpa using h
      simp [completeLinesAux_cons, hc, completeLinesAux]
    · have h' : rest.getLast? = some '\n' := by
        rwa [getLast?_cons_of_ne_nil c rest hre] at h
      rw [List.cons_append, completeLinesAux_cons, completeLinesAux_cons c rest cur]
      by_cases hc : c = '\n'
      · rw [if_pos hc, if_pos hc, ih h']
        simp
      · rw [if_neg hc, if_neg hc, ih h']

/-- The poller is lossless over a run whose every poll boundary falls on
a newline boundary: starting from a processed prefix of length pos equal
to the accumulated content, the emitted lines are exactly the nonblank
completed lines of the appended deltas. -/
theorem logPollRun_aligned (ds : List (List Char))
    (hds : ∀ d ∈ ds, d = [] ∨ d.getLast? = some '\n') (a : List Char) :
    logPollRun (snapshotsFrom a ds) a.length =
      (completeLines ds.flatten).filter lineNonBlank := by
  induction ds generalizing a with
  | nil => simp [snapshotsFrom, logPollRun, completeLines, completeLinesAux]
  | cons d ds ih =>
    have hd := hds d (by simp)
    have hds' : ∀ x ∈ ds, x = [] ∨ x.getLast? = some '\n' :=
      fun x hx => hds x (by simp [hx])
    cases hd with
    | inl hnil =>
      subst hnil
      simp only [snapshotsFrom, logPollRun, logPollTick, List.append_nil,
        lt_self_iff_false, if_false]
      simpa [completeLines] using ih hds' a
    | inr hlast =>
      have hdne : d ≠ [] := by
        intro hh
        rw [hh] at hlast
        simp at hlast
      have hlen : a.length < (a ++ d).length := by
        simp only [List.length_append]
        have := List.length_pos.mpr hdne
        omega
      simp only [snapshotsFrom, logPollRun, logPollTick, hlen, if_pos]
      rw [List.drop_left]
      rw [show splitNl d = splitNlAux d [] from rfl, dropLast_splitNlAux]
      rw [ih hds' (a ++ d)]
      rw [show (d :: ds).flatten = d ++ ds.flatten from rfl]
      rw [show completeLines (d ++ ds.flatten) = completeLinesAux (d ++ ds.flatten) [] from rfl]
      rw [completeLinesAux_append_aligned d ds.flatten hlast]
      simp [List.filter_append, completeLines]

/-! ## Helper lemmas on the port patterns -/

/-- Every pattern loop checks the candidate against the PROCESS range
before returning it. -/
theorem tryPatterns_mem_range (ps : List (List RItem)) (s : List Char) (p : Nat)
    (h : tryPatterns ps s = some p) :
    PROCESS.PORT_MIN ≤ p ∧ p ≤ PROCESS.PORT_MAX := by
  induction ps with
  | nil => simp [tryPatterns] at h
  | cons items ps ih =>
    rw [tryPatterns] at h
    cases hE : execPattern items s with
    | none =>
      rw [hE] at h
      exact ih h
    | some q =>
      simp only [hE] at h
      by_cases hr : (decide (PROCESS.PORT_MIN ≤ q) && decide (q ≤ PROCESS.PORT_MAX)) = true
      · rw [if_pos hr] at h
        cases h
        simpa using hr
      · rw [if_neg hr] at h
        exact ih h

/-- Any port detectPortFromLog returns lies in the PROCESS range. -/
theorem detectPortFromLog_range (s : List Char) (p : Nat)
    (h : detectPortFromLog s = some p) :
    PROCESS.PORT_MIN ≤ p ∧ p ≤ PROCESS.PORT_MAX := by
  rw [detectPortFromLog] at h
  by_cases he : (errorPatterns.any fun pat => containsCI pat s) = true
  · rw [if_pos he] at h
    cases h
  · rw [if_neg he] at h
    cases h1 : tryPatterns frameworkPatterns s with
    | some q =>
      rw [h1] at h
      cases h
      exact tryPatterns_mem_range _ _ _ h1
    | none =>
      rw [h1] at h
      cases h2 : tryPatterns positivePatterns s with
      | some q =>
        rw [h2] at h
        cases h
        exact tryPatterns_mem_range _ _ _ h2
      | none =>
        rw [h2] at h
        exact tryPatterns_mem_range _ _ _ h

/-! ## Helper lemmas on cleanup and registration -/

theorem lookupA_eraseKey_self {α : Type} (l : List (String × α)) (k : String) :
    lookupA (eraseKey l k) k = none := by
  induction l with
  | nil => rfl
  | cons e l ih =>
    rw [eraseKey, List.filter_cons]
    by_cases he : e.1 = k
    · simp only [he, bne_self_eq_false, Bool.false_eq_true, if_false]
      exact ih
    · have hb : (e.1 != k) = true := by simpa using he
      rw [if_pos hb]
      simp only [lookupA, List.find?, he, decide_eq_false he]
      exact ih

/-- Because cleanupProcessResources deletes the registry entry before
calling stopLogPolling, the latter finds nothing and clears no interval:
the cleanup reduces to the deletion plus stopStatsMonitoring. -/
theorem cleanupProcessResources_eq (st : RunnerState) (appId : String) :
    cleanupProcessResources st appId =
      stopStatsMonitoring { st with runningProcesses := eraseKey st.runningProcesses appId } appId := by
  simp [cleanupProcessResources, stopLogPolling, lookupA_eraseKey_self]

theorem not_mem_filter_ne_self (l : List String) (k : String) :
    k ∉ l.filter (fun a => a != k) := by
  simp [List.mem_filter]

theorem stopStats_not_mem (st : RunnerState) (appId : String) :
    appId ∉ (stopStatsMonitoring st appId).statsMonitoringTimers := by
  rw [stopStatsMonitoring]
  by_cases h : appId ∈ st.statsMonitoringTimers
  · simp [h, not_mem_filter_ne_self]
  · simp [h]

theorem stopStats_fields (st : RunnerState) (appId : String) :
    (stopStatsMonitoring st appId).runningProcesses = st.runningProcesses ∧
    (stopStatsMonitoring st appId).stoppingProcesses = st.stoppingProcesses ∧
    (stopStatsMonitoring st appId).procHandles = st.procHandles ∧
    (stopStatsMonitoring st appId).liveIntervals = st.liveIntervals := by
  rw [stopStatsMonitoring]
  by_cases h : appId ∈ st.statsMonitoringTimers <;> simp [h]

theorem cleanup_lookupA_none (st : RunnerState) (appId : String) :
    lookupA (cleanupProcessResources st appId).runningProcesses appId = none := by
  rw [cleanupProcessResources_eq, (stopStats_fields _ _).1]
  exact lookupA_eraseKey_self _ _

theorem cleanup_stats_not_mem (st : RunnerState) (appId : String) :
    appId ∉ (cleanupProcessResources st appId).statsMonitoringTimers := by
  rw [cleanupProcessResources_eq]
  exact stopStats_not_mem _ _

theorem cleanup_preserves_stopping (st : RunnerState) (appId : String) :
    (cleanupProcessResources st appId).stoppingProcesses = st.stoppingProcesses := by
  rw [cleanupProcessResources_eq]
  exact (stopStats_fields _ _).2.1

theorem cleanup_preserves_handles (st : RunnerState) (appId : String) :
    (cleanupProcessResources st appId).procHandles = st.procHandles := by
  rw [cleanupProcessResources_eq]
  exact (stopStats_fields _ _).2.2.1

theorem stopWatch_preserves_stopping (st : RunnerState) (appId : String) :
    (stopWatch st appId).stoppingProcesses = st.stoppingProcesses := by
  rw [stopWatch]
  cases lookupA st.procHandles appId <;> simp [setHandle]

theorem stopWatchIfRecovered_preserves_stopping (st : RunnerState) (appId : String) :
    (stopWatchIfRecovered st appId).stoppingProcesses = st.stoppingProcesses := by
  rw [stopWatchIfRecovered]
  cases lookupA st.procHandles appId with
  | none => rfl
  | some h =>
    by_cases hk : h.kind = HandleKind.recovered <;> simp [hk, stopWatch_preserves_stopping]

theorem clearStopTimeout_not_mem (st : RunnerState) (appId : String) :
    appId ∉ (clearStopTimeout st appId).stoppingProcesses := by
  rw [clearStopTimeout]
  by_cases hmem : appId ∈ st.stoppingProcesses
  · simp [hmem, not_mem_filter_ne_self]
  · simp [hmem]

theorem closeHandler_stopping_not_mem (st : RunnerState) (appId : String) :
    appId ∉ (closeHandler st appId).1.stoppingProcesses := by
  rw [closeHandler]
  simp only [cleanup_preserves_stopping, stopWatchIfRecovered_preserves_stopping]
  exact clearStopTimeout_not_mem _ _

theorem statsTick_after_cleanup_silent (st : RunnerState) (appId : String)
    (alive : Bool) (now : Nat)
    (hnm : appId ∉ st.statsMonitoringTimers) :
    statsTick st appId alive now = (st, []) := by
  rw [statsTick]
  simp [hnm]

/-- Registering a not-yet-present app appends exactly its key to the
registry. -/
theorem setup_runningKeys (st : RunnerState) (appId installPath : String)
    (h : HandleState) (now : Nat) (b : Bool)
    (habs : (lookupA st.runningProcesses appId).isSome = false) :
    ((setupProcessHandlers st appId installPath h now b).1.runningProcesses).map Prod.fst =
      st.runningProcesses.map Prod.fst ++ [appId] := by
  have h1 : lookupA (setKey st.runningProcesses appId
      { startTime := now, installPath := installPath, logPollInterval := none }) appId =
      some { startTime := now, installPath := installPath, logPollInterval := none } :=
    lookupA_setKey_absent_self _ _ _ habs
  rw [setupProcessHandlers]
  simp only [setHandle, startLogPollingTimer, startStatsMonitoring]
  by_cases hb : b = true
  · subst hb
    simp only [if_true]
    have hk2 := keys_setKey_present
      (setKey st.runningProcesses appId { startTime := now, installPath := installPath, logPollInterval := none })
      appId { startTime := now, installPath := installPath, logPollInterval := some st.nextTimerId }
      (by simp [h1])
    by_cases hs : appId ∈ st.statsMonitoringTimers <;>
      by_cases hr : h.kind = HandleKind.recovered <;>
        simp [hs, hr, hk2, keys_setKey_absent _ _ _ habs] <;>
          cases hl : lookupA (setKey st.procHandles appId h) appId <;>
            simp [hk2, keys_setKey_absent _ _ _ habs]
  · have hb' : b = false := by simpa using hb
    subst hb'
    simp only [Bool.false_eq_true, if_false]
    by_cases hs : appId ∈ st.statsMonitoringTimers <;>
      by_cases hr : h.kind = HandleKind.recovered <;>
        simp [hs, hr, keys_setKey_absent _ _ _ habs] <;>
          cases hl : lookupA (setKey st.procHandles appId h) appId <;>
            simp [keys_setKey_absent _ _ _ habs]

/-- Lookup on a spread of two objects: the right (later) operand wins. -/
theorem objLookup_append (l l' : List (String × String)) (k : String) :
    objLookup (l ++ l') k = (objLookup l' k <|> objLookup l k) := by
  rw [objLookup, List.reverse_append, List.find?_append]
  cases h : l'.reverse.find? (fun e => e.1 = k) <;> simp [objLookup, h]

theorem objLookup_single_self (k : String) (v : String) :
    objLookup [(k, v)] k = some v := by
  simp [objLookup, List.find?]

theorem objLookup_single_ne (k k' : String) (v : String) (h : k' ≠ k) :
    objLookup [(k, v)] k' = none := by
  simp [objLookup, List.find?, Ne.symm h]

/-- The tokenizer emits the two wrapper tokens of a "uv run " prefix and
then tokenizes the remainder from a fresh word boundary. -/
theorem tokenize_uvRun_append (x : String) :
    tokenize ("uv run " ++ x) = "uv".data :: "run".data :: tokenize x := by
  have hd : ("uv run " ++ x).data = 'u' :: 'v' :: ' ' :: 'r' :: 'u' :: 'n' :: ' ' :: x.data := by
    rw [String.data_append]
    rfl
  rw [tokenize, hd]
  simp [tokAux, tokenize]

/-! ## Claim theorems -/

/-- Claim C4: the port sniffer rejects the refused-connection line even
though it mentions port 5432, recognizes the Flask startup line as port
5000, and returns 8000 rather than 5432 for a line whose first number
belongs to a database message: negative-keyword rejection precedes all
positive matching, and the first successful pattern class wins, not the
first number appearing in the line. -/
theorem detectPortFromLog_examples :
    detectPortFromLog "Error: Connection refused on port 5432".data = none ∧
    detectPortFromLog " * Running on http://127.0.0.1:5000".data = some 5000 ∧
    detectPortFromLog
        "Connected to DB on port 5432. Server listening on http://0.0.0.0:8000".data =
      some 8000 :=
  ⟨rfl, rfl, rfl⟩

/-- Claim C5: every port the sniffer returns lies in
[PROCESS.PORT_MIN, PROCESS.PORT_MAX] = [1, 65535] (so 0 and 65536 are
never returned); 1 and 65535 are returnable; and an out-of-range
candidate (the Flask pattern capturing 0 below) makes the search
continue with further patterns rather than return none. -/
theorem detectPortFromLog_bounds :
    (∀ s p, detectPortFromLog s = some p →
      PROCESS.PORT_MIN ≤ p ∧ p ≤ PROCESS.PORT_MAX) ∧
    detectPortFromLog "Listening on port 1".data = some 1 ∧
    detectPortFromLog "Listening on port 65535".data = some 65535 ∧
    detectPortFromLog " * Running on foo:0 http://localhost:8080".data = some 8080 :=
  ⟨detectPortFromLog_range, rfl, rfl, rfl⟩

/-- Witness for C5: the bound theorem applied at the concrete line whose
detected port is 8080. -/
theorem detectPortFromLog_bounds_witness :
    PROCESS.PORT_MIN ≤ 8080 ∧ 8080 ≤ PROCESS.PORT_MAX :=
  detectPortFromLog_bounds.1 " * Running on foo:0 http://localhost:8080".data 8080
    detectPortFromLog_bounds.2.2.2

/-- Claim C3: for a persisted record with a pid, the recovery-loop step
with that pid alive reports the app running with the same pid and the
previously known port; with the pid dead it reports the app not running
and clears both pid and port. -/
theorem recoveryStep_spec (a : AppInfo) (p : Nat) (hp : a.pid = some p) :
    ((recoveryStep true a).status = AppStatus.running ∧
     (recoveryStep true a).pid = some p ∧
     (recoveryStep true a).port = a.port) ∧
    ((recoveryStep false a).status ≠ AppStatus.running ∧
     (recoveryStep false a).pid = none ∧
     (recoveryStep false a).port = none) := by
  refine ⟨⟨?_, ?_, ?_⟩, ⟨?_, ?_, ?_⟩⟩
  · simp [recoveryStep, hp]
  · simp [recoveryStep, hp]
  · simp [recoveryStep, hp]
  · cases hs : a.status <;> simp [recoveryStep, hp, hs]
  · simp [recoveryStep, hp]
  · simp [recoveryStep, hp]

/-- Witness for C3 at a concrete persisted record. -/
theorem recoveryStep_spec_witness :
    ((recoveryStep true ⟨AppStatus.installed, some 9, some 8080, some "/p"⟩).status =
        AppStatus.running ∧
     (recoveryStep true ⟨AppStatus.installed, some 9, some 8080, some "/p"⟩).pid = some 9 ∧
     (recoveryStep true ⟨AppStatus.installed, some 9, some 8080, some "/p"⟩).port =
        (⟨AppStatus.installed, some 9, some 8080, some "/p"⟩ : AppInfo).port) ∧
    ((recoveryStep false ⟨AppStatus.installed, some 9, some 8080, some "/p"⟩).status ≠
        AppStatus.running ∧
     (recoveryStep false ⟨AppStatus.installed, some 9, some 8080, some "/p"⟩).pid = none ∧
     (recoveryStep false ⟨AppStatus.installed, some 9, some 8080, some "/p"⟩).port = none) :=
  recoveryStep_spec ⟨AppStatus.installed, some 9, some 8080, some "/p"⟩ 9 rfl

/-- Claim C8 counterexample: the poll-local buffer does not carry a
trailing partial line to the next poll — the offset advances to the full
file size, so when "wor" arrives in one poll and "ld\n" in the next, the
completed line "world" is delivered truncated as "ld". -/
theorem logPoll_truncates_partial_line :
    logPollRun ["hello\nwor".data, "hello\nworld\n".data] 0 =
      ["hello".data, "ld".data] ∧
    completeLines "hello\nworld\n".data = ["hello".data, "world".data] :=
  ⟨rfl, rfl⟩

/-- Claim C8 (amended): on every poll the tailer reads only the bytes
past the remembered offset and splits them on newlines, holding back the
trailing partial component within that poll; when every poll's delta
ends at a newline boundary, no completed nonblank line is lost or
truncated — but a delta ending mid-line has its partial tail skipped
(offset jumps to the file size), so a line completed across two polls is
truncated (see the counterexample). -/
theorem logPollRun_aligned_lossless (ds : List (List Char))
    (hds : ∀ d ∈ ds, d = [] ∨ d.getLast? = some '\n') :
    logPollRun (snapshotsFrom [] ds) 0 =
      (completeLines ds.flatten).filter lineNonBlank :=
  logPollRun_aligned ds hds []

/-- Witness for C8 (amended) on a two-poll aligned run. -/
theorem logPollRun_aligned_lossless_witness :
    logPollRun (snapshotsFrom [] ["hello\n".data, "world\n".data]) 0 =
      (completeLines (["hello\n".data, "world\n".data] : List (List Char)).flatten).filter
        lineNonBlank :=
  logPollRun_aligned_lossless ["hello\n".data, "world\n".data] (by decide)

/-- Claim C9 counterexample: resolution is not idempotent under the
"uv run " wrap for commands that themselves start with the runner name:
wrapping "uv run app.py" yields spawn arguments
["run", "uv", "run", "app.py"], not the ["run", "app.py"] that the inner
command resolves to. -/
theorem resolveSpawnArgs_double_wrap :
    resolveSpawnArgs "uv run uv run app.py" =
      .ok ["run".data, "uv".data, "run".data, "app.py".data] ∧
    resolveSpawnArgs "uv run app.py" = .ok ["run".data, "app.py".data] ∧
    (["run".data, "uv".data, "run".data, "app.py".data] : List (List Char)) ≠
      ["run".data, "app.py".data] :=
  ⟨rfl, rfl, by decide⟩

/-- Claim C9 (amended): for every command string whose first token is
not the runner name "uv", resolving the wrapped command "uv run X"
produces the same spawned argument vector as resolving X itself — both
spawn the runner with arguments ["run", ...tokens(X)] — so no double
"run run" prefix arises from wrapping such a command. -/
theorem resolveSpawnArgs_wrap_idempotent (x : String) (t : List Char)
    (ts : List (List Char)) (htok : tokenize x = t :: ts) (hne : t ≠ "uv".data) :
    resolveSpawnArgs ("uv run " ++ x) = .ok ("run".data :: t :: ts) ∧
    resolveSpawnArgs x = .ok ("run".data :: t :: ts) := by
  constructor
  · simp [resolveSpawnArgs, tokenize_uvRun_append, htok]
  · simp [resolveSpawnArgs, htok, hne]

/-- Witness for C9 (amended) at the command "python app.py". -/
theorem resolveSpawnArgs_wrap_idempotent_witness :
    resolveSpawnArgs ("uv run " ++ "python app.py") =
      .ok ("run".data :: "python".data :: ["app.py".data]) ∧
    resolveSpawnArgs "python app.py" =
      .ok ("run".data :: "python".data :: ["app.py".data]) :=
  resolveSpawnArgs_wrap_idempotent "python app.py" "python".data ["app.py".data] rfl
    (by decide)

/-- Claim C10: the spawned child's environment is the supervisor's own
environment, extended with PYTHONUNBUFFERED=1, then overlaid with the
caller-supplied map, in that precedence order: a caller key always wins,
the injected PYTHONUNBUFFERED=1 applies when the caller does not set it,
and every other supervisor key not mentioned by the caller passes
through. -/
theorem buildChildEnv_precedence :
    (∀ pe ce k v, objLookup ce k = some v →
      objLookup (buildChildEnv pe ce) k = some v) ∧
    (∀ pe ce, objLookup ce "PYTHONUNBUFFERED" = none →
      objLookup (buildChildEnv pe ce) "PYTHONUNBUFFERED" = some "1") ∧
    (∀ pe ce k, objLookup ce k = none → k ≠ "PYTHONUNBUFFERED" →
      objLookup (buildChildEnv pe ce) k = objLookup pe k) := by
  refine ⟨?_, ?_, ?_⟩
  · intro pe ce k v h
    rw [buildChildEnv, objLookup_append, objLookup_append, h]
    rfl
  · intro pe ce h
    rw [buildChildEnv, objLookup_append, objLookup_append, h, objLookup_single_self]
    rfl
  · intro pe ce k h hk
    rw [buildChildEnv, objLookup_append, objLookup_append, h, objLookup_single_ne _ _ _ hk]
    rfl

/-- Witness for C10: the caller's PYTHONUNBUFFERED wins over both the
injected value and the supervisor's inherited one. -/
theorem buildChildEnv_precedence_witness :
    objLookup
        (buildChildEnv [("PATH", "/bin"), ("PYTHONUNBUFFERED", "0")]
          [("PYTHONUNBUFFERED", "x")]) "PYTHONUNBUFFERED" = some "x" :=
  buildChildEnv_precedence.1 [("PATH", "/bin"), ("PYTHONUNBUFFERED", "0")]
    [("PYTHONUNBUFFERED", "x")] "PYTHONUNBUFFERED" "x" rfl

/-- Claim C1: the registry keeps at most one entry per appId — runApp
preserves key-uniqueness of the running-process map — and a launch
issued while an entry for that appId is present always fails with
AlreadyRunning and returns the state entirely unchanged, so the existing
entry, its handle and its timers are unaltered. -/
theorem runApp_alreadyRunning_spec :
    (∀ st appId installPath rc dc ce pe ok pid now,
      (lookupA st.runningProcesses appId).isSome = true →
      runApp st appId installPath rc dc ce pe ok pid now =
        (st, [], Except.error RunError.alreadyRunning)) ∧
    (∀ st appId installPath rc dc ce pe ok pid now,
      ((st : RunnerState).runningProcesses.map Prod.fst).Nodup →
      (((runApp st appId installPath rc dc ce pe ok pid now).1.runningProcesses).map
        Prod.fst).Nodup) := by
  constructor
  · intro st appId installPath rc dc ce pe ok pid now h
    simp [runApp, h]
  · intro st appId installPath rc dc ce pe ok pid now hnd
    by_cases hpre : (lookupA st.runningProcesses appId).isSome = true
    · simpa [runApp, hpre] using hnd
    · have hfalse : (lookupA st.runningProcesses appId).isSome = false := by
        simpa using hpre
      rw [runApp]
      simp only [hfalse, Bool.false_eq_true, if_false]
      cases hcd : (rc <|> dc) with
      | none => exact hnd
      | some cmd =>
        simp only [hcd]
        cases hra : resolveSpawnArgs cmd with
        | error e => simp only [hra]; exact hnd
        | ok args =>
          simp only [hra]
          by_cases hok : ok = true
          · subst hok
            simp only [Bool.not_true, Bool.false_eq_true, if_false]
            rcases hsetup : setupProcessHandlers st appId installPath
                ⟨HandleKind.spawned, some pid, false⟩ now true with ⟨st', evs, pidr⟩
            simp only [hsetup]
            have hkeys := setup_runningKeys st appId installPath
              ⟨HandleKind.spawned, some pid, false⟩ now true hfalse
            rw [hsetup] at hkeys
            simp only at hkeys
            have hmem : appId ∉ st.runningProcesses.map Prod.fst :=
              not_mem_keys_of_lookupA_none _ _
                (Option.not_isSome_iff_eq_none.mp (by simp [hfalse]))
            simp only [hkeys]
            simp [List.nodup_append, hnd, hmem]
          · have hok' : ok = false := by simpa using hok
            subst hok'
            simp only [Bool.not_false, if_true]
            exact hnd

/-- Witness for C1: a second launch of app "a" while it is tracked fails
with AlreadyRunning and leaves the state untouched. -/
theorem runApp_alreadyRunning_spec_witness :
    runApp launchedState "a" "/p" (some "python app.py") none [] [] true 99 9 =
      (launchedState, [], Except.error RunError.alreadyRunning) :=
  runApp_alreadyRunning_spec.1 launchedState "a" "/p" (some "python app.py") none [] []
    true 99 9 rfl

/-- Claim C2 counterexample: with the adopted process of recoveredState
dead, a health-poll tick at time 10000 detects a zombie, removes the
entry and emits a stop notification; the handle's liveness watch is
still armed afterwards, so its close event fires the close handler,
which emits a second stop notification — and the log-poll interval (id
0) is still live at the end, because cleanup deletes the registry entry
before stopLogPolling consults it. -/
theorem stop_notification_fires_twice :
    (statsTick recoveredState "a" false 10000).2 =
      [REvent.log "a" LogKey.processZombie, REvent.stopped "a"] ∧
    (statsTick recoveredState "a" false 10000).1.procHandles =
      [("a", ⟨HandleKind.recovered, some 4242, true⟩)] ∧
    (watchTick (statsTick recoveredState "a" false 10000).1 "a" false).2 =
      [REvent.log "a" LogKey.processExited, REvent.stopped "a"] ∧
    (watchTick (statsTick recoveredState "a" false 10000).1 "a" false).1.liveIntervals =
      [0] :=
  ⟨rfl, rfl, rfl, rfl⟩

/-- Claim C2 (amended): every detection path removes the registry entry
and cancels the health-poll timer and kill-fallback timeout; when the
close event is the first detection the stop notification fires exactly
once, and a subsequent health-poll tick emits nothing.  The log-poll
interval, however, is never cleared (the entry is deleted before
stopLogPolling consults it), and when a health-poll tick detects death
before the close event fires, the close handler emits a second stop
notification. -/
theorem closeHandler_first_detection (st : RunnerState) (appId : String)
    (alive : Bool) (now : Nat) :
    (closeHandler st appId).2 =
      [REvent.log appId LogKey.processExited, REvent.stopped appId] ∧
    lookupA (closeHandler st appId).1.runningProcesses appId = none ∧
    appId ∉ (closeHandler st appId).1.statsMonitoringTimers ∧
    appId ∉ (closeHandler st appId).1.stoppingProcesses ∧
    statsTick (closeHandler st appId).1 appId alive now =
      ((closeHandler st appId).1, []) := by
  refine ⟨rfl, cleanup_lookupA_none _ _, cleanup_stats_not_mem _ _,
    closeHandler_stopping_not_mem _ _, ?_⟩
  exact statsTick_after_cleanup_silent _ _ _ _ (cleanup_stats_not_mem _ _)

/-- Claim C6 counterexample: a successful stopApp on the launched state
has already emptied the health-poll timer map while the registry entry —
hence the not-yet-terminated process — is still present: health polling
is disabled before termination is confirmed, contradicting the claim
that both polls stay active until the exit is observed. -/
theorem stopApp_disables_health_poll_early :
    (stopApp launchedState "a" false true).2.2 = Except.ok () ∧
    (stopApp launchedState "a" false true).1.statsMonitoringTimers = [] ∧
    (lookupA (stopApp launchedState "a" false true).1.runningProcesses "a").isSome =
      true :=
  ⟨rfl, rfl, rfl⟩

/-- Claim C6 (amended): a successful stopApp disables health polling
synchronously at call time, before the termination is observed; log
polling it does not touch at all — the registry entry, its log-poll
interval handle and every live interval survive until the exit is
observed. -/
theorem stopApp_polling_effects (st : RunnerState) (appId : String) (w k : Bool)
    (info : ProcessInfo) (hin : lookupA st.runningProcesses appId = some info)
    (hpid : ((lookupA st.procHandles appId).bind HandleState.pid).isSome = true)
    (hstop : appId ∉ st.stoppingProcesses) :
    (stopApp st appId w k).2.2 = Except.ok () ∧
    appId ∉ (stopApp st appId w k).1.statsMonitoringTimers ∧
    lookupA (stopApp st appId w k).1.runningProcesses appId = some info ∧
    (stopApp st appId w k).1.liveIntervals = st.liveIntervals := by
  obtain ⟨pid, hp⟩ := Option.isSome_iff_exists.mp hpid
  have hc : st.stoppingProcesses.contains appId = false := by
    rw [Bool.eq_false_iff]
    intro hcon
    exact hstop (List.elem_iff.mp hcon)
  rw [stopApp]
  simp only [hin, hp, hc, Bool.false_eq_true, if_false]
  by_cases hw : w = true
  · subst hw
    simp only [if_true]
    refine ⟨by simp, stopStats_not_mem _ _, ?_, (stopStats_fields _ _).2.2.2⟩
    rw [(stopStats_fields _ _).1]
    exact hin
  · have hw' : w = false := by simpa using hw
    subst hw'
    simp only [Bool.false_eq_true, if_false]
    refine ⟨by simp, stopStats_not_mem _ _, ?_, (stopStats_fields _ _).2.2.2⟩
    rw [(stopStats_fields _ _).1]
    exact hin

/-- Witness for C6 (amended) at the launched state. -/
theorem stopApp_polling_effects_witness :
    (stopApp launchedState "a" false true).2.2 = Except.ok () ∧
    "a" ∉ (stopApp launchedState "a" false true).1.statsMonitoringTimers ∧
    lookupA (stopApp launchedState "a" false true).1.runningProcesses "a" =
      some { startTime := 5, installPath := "/p", logPollInterval := some 0 } ∧
    (stopApp launchedState "a" false true).1.liveIntervals =
      launchedState.liveIntervals :=
  stopApp_polling_effects launchedState "a" false true
    { startTime := 5, installPath := "/p", logPollInterval := some 0 } rfl rfl
    (by decide)

/-- Claim C7 counterexample: with the tree-kill callback reporting a
delivery failure, stopApp logs only a warning and still returns
success. -/
theorem stopApp_success_despite_kill_error :
    (stopApp launchedState "a" false false).2.2 = Except.ok () ∧
    (stopApp launchedState "a" false false).2.1 =
      [REvent.log "a" LogKey.stoppingMsg, REvent.log "a" LogKey.sigtermWarning,
       REvent.log "a" LogKey.stopRequested] :=
  ⟨rfl, rfl⟩

/-- Claim C7 (amended): an OS-level failure to deliver the termination
signal, reported through the tree-kill callback, is logged as a
sigterm warning while stopApp still returns success to the caller; only
a synchronously thrown exception is wrapped and returned as a failed
result. -/
theorem stopApp_kill_error_warns (st : RunnerState) (appId : String) (w : Bool)
    (info : ProcessInfo) (hin : lookupA st.runningProcesses appId = some info)
    (hpid : ((lookupA st.procHandles appId).bind HandleState.pid).isSome = true)
    (hstop : appId ∉ st.stoppingProcesses) :
    (stopApp st appId w false).2.2 = Except.ok () ∧
    REvent.log appId LogKey.sigtermWarning ∈ (stopApp st appId w false).2.1 := by
  obtain ⟨pid, hp⟩ := Option.isSome_iff_exists.mp hpid
  have hc : st.stoppingProcesses.contains appId = false := by
    rw [Bool.eq_false_iff]
    intro hcon
    exact hstop (List.elem_iff.mp hcon)
  rw [stopApp]
  simp only [hin, hp, hc, Bool.false_eq_true, if_false]
  by_cases hw : w = true
  · subst hw
    simp
  · have hw' : w = false := by simpa using hw
    subst hw'
    simp

/-- Witness for C7 (amended) at the launched state. -/
theorem stopApp_kill_error_warns_witness :
    (stopApp launchedState "a" false false).2.2 = Except.ok () ∧
    REvent.log "a" LogKey.sigtermWarning ∈ (stopApp launchedState "a" false false).2.1 :=
  stopApp_kill_error_warns launchedState "a" false
    { startTime := 5, installPath := "/p", logPollInterval := some 0 } rfl rfl
    (by decide)

end UvDash
